import Mathlib

/-!
Shallow embedding of the oracle lifecycle coordinator of
`defillama-answerer` (Rust), covering:

* `src/db/models.rs` — the durable store rows `ActiveOracle` and `Snapshot`
  and their operations (`create`, `delete`, `get_all_for_chain_id`,
  `Snapshot.update`, `Snapshot.get_for_chain_id`);
* `src/listener.rs` — the per-chain update dispatcher (`Listener::on_update`)
  with its `scanning_past` flag;
* `src/scanner/commons.rs` — candidate extraction
  (`parse_kpi_token_creation_log`) and the acknowledgement pipeline
  (`acknowledge_active_oracle`);
* `src/main.rs` — the top-level supervisor join loop.

External capabilities (IPFS fetch with retry, the DefiLlama validator, the
connection pool, pinning, chain RPC calls) are modelled by explicit outcome
parameters, so every function here is a pure, executable Lean definition.
Machine integers are modelled as `Nat`/`Int`; the `i32::try_from(..).unwrap()`
calls of `models.rs` become `Option`-valued steps where `none` models the
panic.
-/

namespace DefiLlamaAnswerer

/-- Chain-native account identifier (`ethers::types::Address`), kept abstract
as a number. -/
abbrev Address := Nat

/-- The specification document is opaque to this core beyond validation;
modelled as a string. -/
abbrev Specification := String

/-- `i32::MAX` as a natural number. -/
def i32Max : Nat := 2 ^ 31 - 1

/-- `i32::try_from(chain_id: u64)`: succeeds exactly when the value fits in a
signed 32-bit integer. `none` corresponds to the `Err` that
`models.rs` immediately `unwrap`s, i.e. a panic. -/
def i32TryFromU64 (n : Nat) : Option Int :=
  if n ≤ i32Max then some (Int.ofNat n) else none

/-- Row of the `active_oracles` table as declared in `src/db/models.rs`:
the struct has fields `address`, `chain_id : i32` and `specification` only —
in particular it has NO measurement-timestamp column. -/
structure ActiveOracleRow where
  address : Address
  chain_id : Int
  specification : Specification
deriving DecidableEq

/-- Row of the `snapshots` table (`Snapshot` in `src/db/models.rs`). -/
structure SnapshotRow where
  chain_id : Int
  block_number : Int
deriving DecidableEq

/-- The durable store: the two tables owned by this core. -/
structure Db where
  active_oracles : List ActiveOracleRow
  snapshots : List SnapshotRow
deriving DecidableEq

/-- The empty database. -/
def Db.empty : Db := ⟨[], []⟩

/-- Database-level error outcomes surfaced as `anyhow::Result` errors. -/
inductive DbError where
  | duplicateOracle
  | notFound
deriving DecidableEq

/-- The duplicate-key condition of the `active_oracles` insert: a row with
the same primary key `(chain_id, address)` already exists. -/
def createWouldConflict (db : Db) (address : Address) (cid : Int) : Bool :=
  db.active_oracles.any (fun r => r.address = address ∧ r.chain_id = cid)

/-- `ActiveOracle::create` from `src/db/models.rs`: converts `chain_id` with
`i32::try_from(..).unwrap()` (outer `none` models the panic), then inserts the
row, failing on a duplicate key. Modelled from the spec: the `active_oracles`
table's primary key is `(chain_id, address)` (the schema file is not part of
the excerpted source; the spec states "primary key = chainId+address").
Note the signature stores only address, chain id and specification — the
struct has no measurement-timestamp field, although the caller in
`src/scanner/commons.rs` passes one. -/
def ActiveOracle.create (db : Db) (address : Address) (chain_id : Nat)
    (specification : Specification) : Option (Except DbError Db) :=
  match i32TryFromU64 chain_id with
  | none => none
  | some cid =>
    if createWouldConflict db address cid then
      some (Except.error DbError.duplicateOracle)
    else
      some (Except.ok
        { db with active_oracles :=
            db.active_oracles ++ [⟨address, cid, specification⟩] })

/-- `ActiveOracle::delete` from `src/db/models.rs`: the Rust code runs
`diesel::delete(active_oracles.find(&self.address))`, i.e. the deletion
predicate mentions ONLY the address, not the chain id. Deleting rows that do
not exist is not an error (affected-row count 0). -/
def ActiveOracle.delete (db : Db) (row : ActiveOracleRow) : Except DbError Db :=
  Except.ok
    { db with active_oracles :=
        db.active_oracles.filter (fun r => ¬ (r.address = row.address)) }

/-- `ActiveOracle::get_all_for_chain_id` from `src/db/models.rs`: unchecked
i32 conversion of the chain id, then a filter on `chain_id`. -/
def ActiveOracle.get_all_for_chain_id (db : Db) (chain_id : Nat) :
    Option (List ActiveOracleRow) :=
  (i32TryFromU64 chain_id).map
    (fun cid => db.active_oracles.filter (fun r => r.chain_id = cid))

/-- `Snapshot::update` from `src/db/models.rs`: unchecked i32 conversion of
the chain id, then an upsert (`insert .. on_conflict(chain_id) do_update`)
overwriting `block_number` unconditionally. -/
def Snapshot.update (db : Db) (chain_id : Nat) (block_number : Int) :
    Option Db :=
  (i32TryFromU64 chain_id).map
    (fun cid =>
      if db.snapshots.any (fun s => s.chain_id = cid) then
        { db with snapshots :=
            (db.snapshots.map
              (fun s => if s.chain_id = cid then ⟨cid, block_number⟩ else s)) }
      else
        { db with snapshots := db.snapshots ++ [⟨cid, block_number⟩] })

/-- `Snapshot::get_for_chain_id` from `src/db/models.rs`: unchecked i32
conversion, then `find(chain_id).first`, erroring when no row exists. -/
def Snapshot.get_for_chain_id (db : Db) (chain_id : Nat) :
    Option (Except DbError SnapshotRow) :=
  (i32TryFromU64 chain_id).map
    (fun cid =>
      match db.snapshots.find? (fun s => s.chain_id = cid) with
      | some s => Except.ok s
      | none => Except.error DbError.notFound)

/-! ## The per-chain update dispatcher (`src/listener.rs`) -/

/-- A raw chain log; only the block number matters to the dispatcher itself,
the payload is handed to candidate extraction. -/
structure RawLog where
  block_number : Option Nat
deriving DecidableEq

/-- The `mibs::types::Update` sum consumed by `Listener::on_update`.
`progress_percentage` is an `f32` in the source, compared for exact equality
with `100f32`; it is modelled as a rational. -/
inductive Update where
  | NewLog (log : RawLog)
  | PastBatchCompleted (from_block to_block : Nat) (progress_percentage : ℚ)
  | NewBlock (block_number : Nat)
deriving DecidableEq

/-- Dispatcher-local state of `Listener` (`src/listener.rs`): the fields the
update loop reads or writes. `scanning_past` starts `true` (`Listener::new`). -/
structure ListenerState where
  chain_id : Nat
  template_id : Nat
  scanning_past : Bool
deriving DecidableEq

/-- Observable side effects of one `on_update` step, in execution order.
`handleLog` covers candidate extraction plus the acknowledgement pipeline,
`answeringSweep` is `handle_active_oracles_answering`, and
`advanceCheckpoint b` is `update_checkpoint_block_number(b)`. -/
inductive Action where
  | handleLog (log : RawLog)
  | answeringSweep
  | advanceCheckpoint (block_number : Nat)
deriving DecidableEq

/-- `Listener::on_update` (`src/listener.rs`): returns the new dispatcher
state and the ordered list of effects the step performs.

* `NewLog`: run `on_log` (extraction + acknowledgement); never touches the
  checkpoint.
* `PastBatchCompleted`: clear `scanning_past` exactly when
  `progress_percentage == 100`, then always advance the checkpoint to
  `to_block`.
* `NewBlock`: run the answering sweep first; afterwards advance the
  checkpoint to the new block number only when `scanning_past` is false. -/
def Listener.on_update (s : ListenerState) (u : Update) :
    ListenerState × List Action :=
  match u with
  | Update.NewLog log => (s, [Action.handleLog log])
  | Update.PastBatchCompleted _ to_block progress_percentage =>
      ({ s with scanning_past :=
          if progress_percentage = 100 then false else s.scanning_past },
       [Action.advanceCheckpoint to_block])
  | Update.NewBlock block_number =>
      (s, Action.answeringSweep ::
          (if s.scanning_past then [] else [Action.advanceCheckpoint block_number]))

/-- The Rust `block_number as i64` cast performed by
`Listener::update_checkpoint_block_number` (`src/listener.rs`) before the
value is handed to the store: the u64 bit pattern reinterpreted in two's
complement, wrapping values of `2^63` and above to negatives. -/
def u64AsI64 (n : Nat) : Int :=
  if n % 2 ^ 64 < 2 ^ 63 then ((n % 2 ^ 64 : Nat) : Int)
  else ((n % 2 ^ 64 : Nat) : Int) - 2 ^ 64

/-- Effect of one dispatcher action on the stored checkpoint value
(`none` = no checkpoint row yet). Only `advanceCheckpoint` writes, and it
stores the block number through the `as i64` cast of
`update_checkpoint_block_number`. -/
def applyAction (cp : Option Int) (a : Action) : Option Int :=
  match a with
  | Action.advanceCheckpoint b => some (u64AsI64 b)
  | _ => cp

/-- Fold a step's action list over the checkpoint. -/
def applyActions (cp : Option Int) (as : List Action) : Option Int :=
  as.foldl applyAction cp

/-- One dispatcher step acting on (listener state, stored checkpoint). -/
def dispatchStep (st : ListenerState × Option Int) (u : Update) :
    ListenerState × Option Int :=
  let (s', as) := Listener.on_update st.1 u
  (s', applyActions st.2 as)

/-- All intermediate (state, checkpoint) pairs after each event of a run. -/
def dispatchStates (st : ListenerState × Option Int) :
    List Update → List (ListenerState × Option Int)
  | [] => []
  | u :: us =>
      let st' := dispatchStep st u
      st' :: dispatchStates st' us

/-! ## Candidate extraction (`src/scanner/commons.rs`) -/

/-- Transient candidate data (`DefiLlamaOracleData` in
`src/scanner/commons.rs`): address, measurement timestamp (seconds since the
Unix epoch) and specification CID. Never persisted. -/
structure DefiLlamaOracleData where
  address : Address
  measurement_timestamp : Nat
  specification_cid : String
deriving DecidableEq

/-- A value read from chain state for one oracle, used to record which reads
are batched together. -/
inductive CallItem where
  | finalized
  | template
  | specification
  | measurementTimestamp
deriving DecidableEq

/-- One RPC interaction performed while processing an oracle: either a
batched multicall of several reads, or a single read. -/
inductive CallEvent where
  | multicall (items : List CallItem)
  | single (item : CallItem)
deriving DecidableEq

/-- Outcomes of the chain reads for one oracle address, supplied by the
read/call capability. `pair_call` is the result of the
`Multicall` batching `oracle.finalized()` and `oracle.template()`
(`none` = the batch failed); `specification_call` and
`measurement_timestamp_call` are the two separate follow-up reads. -/
structure OracleReads where
  pair_call : Option (Bool × Nat)
  specification_call : Option String
  measurement_timestamp_call : Option Nat
deriving DecidableEq

/-- The per-oracle body of the loop in `parse_kpi_token_creation_log`
(`src/scanner/commons.rs`): first a multicall of exactly
`{finalized, template}`; on success, skip if finalized or if the template id
differs from the target; otherwise fetch the specification CID and then the
measurement timestamp by two separate calls, skipping on either failure.
Returns the candidate (if any) together with the trace of reads issued. -/
def processOracle (oracle_template_id : Nat) (address : Address)
    (reads : OracleReads) : Option DefiLlamaOracleData × List CallEvent :=
  let mc := CallEvent.multicall [CallItem.finalized, CallItem.template]
  match reads.pair_call with
  | none => (none, [mc])
  | some (finalized, template_id) =>
    if finalized then (none, [mc])
    else if ¬ (template_id = oracle_template_id) then (none, [mc])
    else
      match reads.specification_call with
      | none => (none, [mc, CallEvent.single CallItem.specification])
      | some specification_cid =>
        match reads.measurement_timestamp_call with
        | none =>
            (none, [mc, CallEvent.single CallItem.specification,
                    CallEvent.single CallItem.measurementTimestamp])
        | some measurement_timestamp =>
            (some ⟨address, measurement_timestamp, specification_cid⟩,
             [mc, CallEvent.single CallItem.specification,
              CallEvent.single CallItem.measurementTimestamp])

/-- The loop of `parse_kpi_token_creation_log` over every oracle address of
the created KPI token: candidates from distinct oracles are collected
independently (`continue` on any per-oracle failure). -/
def processOracles (oracle_template_id : Nat)
    (oracles : List (Address × OracleReads)) : List DefiLlamaOracleData :=
  oracles.filterMap (fun ar => (processOracle oracle_template_id ar.1 ar.2).1)

/-- Outcomes of the non-per-oracle reads of `parse_kpi_token_creation_log`:
log decoding (`none` = the log is not a `CreateToken` event) and the
`KPIToken::oracles()` read (`none` = read failure). -/
structure LogReads where
  decoded_token : Option Address
  oracles_call : Option (List (Address × OracleReads))
deriving DecidableEq

/-- `parse_kpi_token_creation_log` (`src/scanner/commons.rs`): a log that
does not decode as a creation event yields `ok []`; a failure to read the
token's oracle list aborts extraction for this log with an error; otherwise
each oracle is processed independently. -/
def parse_kpi_token_creation_log (oracle_template_id : Nat)
    (log : LogReads) : Except String (List DefiLlamaOracleData) :=
  match log.decoded_token with
  | none => Except.ok []
  | some _token =>
    match log.oracles_call with
    | none => Except.error "could not get oracles for kpi token"
    | some oracles => Except.ok (processOracles oracle_template_id oracles)

/-! ## Acknowledgement pipeline (`src/scanner/commons.rs`) -/

/-- Outcomes of the external capabilities used by
`acknowledge_active_oracle`: the retry-wrapped IPFS fetch (`none` = retry
budget exhausted), the DefiLlama validation verdict per document, the
connection-pool acquisition, whether a web3.storage client is configured,
and the retry-wrapped pinning outcome. -/
structure AckEnv where
  fetch_result : Option Specification
  validate : Specification → Bool
  pool_ok : Bool
  pinning_configured : Bool
  pin_ok : Bool

/-- Errors `acknowledge_active_oracle` can return to its caller. -/
inductive AckError where
  | poolUnavailable
  | insertFailed
  | pinFailed
deriving DecidableEq

/-- `acknowledge_active_oracle` (`src/scanner/commons.rs`): fetch the
specification with retry — exhaustion is logged and swallowed (`Ok`); a
fetched document failing validation is logged and swallowed (`Ok`), no row
created; on validation success, acquire a connection (failure is an error)
and insert the ActiveOracle row (failure is an error); finally, when a
pinning client is configured, pin with retry (failure is an error). The
outer `none` models a panic inside `ActiveOracle::create` (chain id beyond
`i32::MAX`). Note: the Rust caller passes `oracle_data.measurement_timestamp`
to `ActiveOracle::create`, but the store signature in `src/db/models.rs`
has no measurement-timestamp parameter or column, so the persisted row drops
it. -/
def acknowledge_active_oracle (env : AckEnv) (chain_id : Nat)
    (oracle_data : DefiLlamaOracleData) (db : Db) :
    Option (Except AckError Unit × Db) :=
  match env.fetch_result with
  | none => some (Except.ok (), db)
  | some specification =>
    if ¬ env.validate specification then some (Except.ok (), db)
    else if ¬ env.pool_ok then some (Except.error AckError.poolUnavailable, db)
    else
      match ActiveOracle.create db oracle_data.address chain_id specification with
      | none => none
      | some (Except.error _) => some (Except.error AckError.insertFailed, db)
      | some (Except.ok db') =>
        if env.pinning_configured then
          if env.pin_ok then some (Except.ok (), db')
          else some (Except.error AckError.pinFailed, db')
        else some (Except.ok (), db')

/-! ## Top-level supervisor (`src/main.rs`) -/

/-- How one top-level task (a chain's scan task or the API server) ends:
it panics (its `JoinHandle` yields a `JoinError`), returns an error, or
returns successfully. -/
inductive TaskOutcome where
  | panicked
  | retErr
  | retOk
deriving DecidableEq

/-- The supervisor join loop of `main` (`src/main.rs`):
`while let Some(res) = join_set.join_next().await do let _ = res.context("task unexpectedly stopped")?`.
The `?` fires only on a `JoinError` (a panicked task); a task's own return
value — `Ok` or `Err` alike — is bound to `_` and discarded, and the loop
continues joining the remaining tasks. -/
def superviseJoin : List TaskOutcome → Except String Unit
  | [] => Except.ok ()
  | t :: ts =>
    match t with
    | TaskOutcome.panicked => Except.error "task unexpectedly stopped"
    | TaskOutcome.retErr => superviseJoin ts
    | TaskOutcome.retOk => superviseJoin ts

/-- Number of tasks the supervisor loop joins before `main` returns. -/
def joinedCount : List TaskOutcome → Nat
  | [] => 0
  | t :: ts =>
    match t with
    | TaskOutcome.panicked => 1
    | TaskOutcome.retErr => 1 + joinedCount ts
    | TaskOutcome.retOk => 1 + joinedCount ts

/-- The block number an update event carries for checkpoint purposes:
`to_block` for `PastBatchCompleted`, the block number for `NewBlock`,
nothing for `NewLog`. -/
def updateTarget : Update → Option Nat
  | Update.NewLog _ => none
  | Update.PastBatchCompleted _ to_block _ => some to_block
  | Update.NewBlock block_number => some block_number

/-- Order on optional checkpoint values: an absent checkpoint is below
everything; a present one must be bounded by a later present one. -/
def cpLe (a b : Option Int) : Prop :=
  ∀ x, a = some x → ∃ y, b = some y ∧ x ≤ y

/-! ## Theorems -/

/-- `cpLe` is reflexive. -/
theorem cpLe_refl (a : Option Int) : cpLe a a :=
  fun x hx => ⟨x, hx, le_refl x⟩

/-- Below `2^63` the `as i64` cast preserves the value. -/
theorem u64AsI64_eq_ofNat (n : Nat) (h : n < 2 ^ 63) :
    u64AsI64 n = Int.ofNat n := by
  have hmod : n % 2 ^ 64 = n :=
    Nat.mod_eq_of_lt (lt_trans h (by norm_num))
  unfold u64AsI64
  rw [hmod, if_pos h]
  rfl

/-- One dispatcher step either leaves the stored checkpoint unchanged or
overwrites it with the (cast) block number carried by the event. -/
theorem dispatchStep_snd_cases (s : ListenerState) (cp : Option Int)
    (u : Update) :
    (dispatchStep (s, cp) u).2 = cp ∨
      ∃ t, updateTarget u = some t ∧
        (dispatchStep (s, cp) u).2 = some (u64AsI64 t) := by
  cases u with
  | NewLog log => exact Or.inl rfl
  | PastBatchCompleted f t p => exact Or.inr ⟨t, rfl, rfl⟩
  | NewBlock b =>
    cases hs : s.scanning_past
    · refine Or.inr ⟨b, rfl, ?_⟩
      simp [dispatchStep, Listener.on_update, hs, applyActions, applyAction]
    · refine Or.inl ?_
      simp [dispatchStep, Listener.on_update, hs, applyActions, applyAction]

/-- The per-oracle read trace always starts with the multicall of
`{finalized, template}` and continues with single reads only. -/
theorem processOracle_trace_shape (tid : Nat) (address : Address)
    (reads : OracleReads) :
    ∃ rest, (processOracle tid address reads).2
        = CallEvent.multicall [CallItem.finalized, CallItem.template] :: rest ∧
      ∀ e ∈ rest, ∃ item, e = CallEvent.single item := by
  rcases reads with ⟨pc, sc, tc⟩
  cases pc with
  | none => exact ⟨[], rfl, by simp⟩
  | some ft =>
    rcases ft with ⟨f, t⟩
    cases f with
    | true => exact ⟨[], by simp [processOracle], by simp⟩
    | false =>
      by_cases ht : t = tid
      · cases sc with
        | none =>
            exact ⟨[CallEvent.single CallItem.specification],
              by simp [processOracle, ht], by simp⟩
        | some cid =>
          cases tc with
          | none =>
              exact ⟨[CallEvent.single CallItem.specification,
                CallEvent.single CallItem.measurementTimestamp],
                by simp [processOracle, ht], by simp⟩
          | some ts =>
              exact ⟨[CallEvent.single CallItem.specification,
                CallEvent.single CallItem.measurementTimestamp],
                by simp [processOracle, ht], by simp⟩
      · exact ⟨[], by simp [processOracle, ht], by simp⟩

/-- A successful `ActiveOracle::create` appends exactly one row, carrying the
given address, the converted chain id and the given specification. -/
theorem create_ok_rows (db : Db) (address : Address) (chain_id : Nat)
    (spec : Specification) (db2 : Db)
    (h : ActiveOracle.create db address chain_id spec = some (Except.ok db2)) :
    db2.active_oracles
      = db.active_oracles ++ [⟨address, Int.ofNat chain_id, spec⟩] := by
  by_cases hle : chain_id ≤ i32Max
  · simp only [ActiveOracle.create, i32TryFromU64, hle, if_true] at h
    split at h
    · simp at h
    · simp only [Option.some.injEq, Except.ok.injEq] at h
      rw [← h]
  · simp [ActiveOracle.create, i32TryFromU64, hle] at h

/-- Claim C1: on every `NewBlock(b)` update the dispatcher always performs
the Answering Sweep; it performs a checkpoint advancement to `b` exactly when
the `scanning_past` (historical replay) flag is false; and every checkpoint
advancement in the step's effect list is preceded by the Answering Sweep. -/
theorem c1_new_block_sweep_then_checkpoint (s : ListenerState) (b : Nat) :
    Action.answeringSweep ∈ (Listener.on_update s (Update.NewBlock b)).2 ∧
    (Action.advanceCheckpoint b ∈ (Listener.on_update s (Update.NewBlock b)).2
        ↔ s.scanning_past = false) ∧
    ∀ i c, (Listener.on_update s (Update.NewBlock b)).2.get? i
        = some (Action.advanceCheckpoint c) →
      ∃ j, j < i ∧ (Listener.on_update s (Update.NewBlock b)).2.get? j
        = some Action.answeringSweep := by
  cases hs : s.scanning_past
  · refine ⟨by simp [Listener.on_update, hs], by simp [Listener.on_update, hs], ?_⟩
    intro i c h
    simp only [Listener.on_update, hs, Bool.false_eq_true, if_false] at h
    match i with
    | 0 => simp [List.get?] at h
    | 1 => exact ⟨0, by omega, rfl⟩
    | n + 2 => simp [List.get?] at h
  · refine ⟨by simp [Listener.on_update, hs], by simp [Listener.on_update, hs], ?_⟩
    intro i c h
    simp only [Listener.on_update, hs, if_true] at h
    match i with
    | 0 => simp [List.get?] at h
    | n + 1 => simp [List.get?] at h

/-- Claim C5: on every `PastBatchCompleted(from, to, p)` update the
dispatcher performs a checkpoint advancement to `to` regardless of `p`; the
historical-replay flag is false afterwards exactly when `p = 100` or it was
false already; and on `p ≠ 100` the flag is left unchanged (it never becomes
false on such an event). -/
theorem c5_past_batch_checkpoint_and_flag (s : ListenerState)
    (from_block to_block : Nat) (p : ℚ) :
    Action.advanceCheckpoint to_block
        ∈ (Listener.on_update s
            (Update.PastBatchCompleted from_block to_block p)).2 ∧
    ((Listener.on_update s
        (Update.PastBatchCompleted from_block to_block p)).1.scanning_past
          = false ↔ (p = 100 ∨ s.scanning_past = false)) ∧
    (¬ p = 100 →
      (Listener.on_update s
          (Update.PastBatchCompleted from_block to_block p)).1.scanning_past
        = s.scanning_past) := by
  by_cases hp : p = 100 <;> cases hs : s.scanning_past <;>
    simp [Listener.on_update, hp, hs]

/-- Claim C2: the acknowledgement task never persists an ActiveOracle whose
specification failed validation — when the fetched document fails validation
the task returns `Ok` with the database unchanged; and every row of the
database after acknowledgement either was already present or carries a
specification that was fetched and passed validation. -/
theorem c2_row_only_with_validated_spec (env : AckEnv) (chain_id : Nat)
    (d : DefiLlamaOracleData) (db : Db) :
    (∀ spec, env.fetch_result = some spec → env.validate spec = false →
      acknowledge_active_oracle env chain_id d db
        = some (Except.ok (), db)) ∧
    (∀ r db', acknowledge_active_oracle env chain_id d db = some (r, db') →
      ∀ row ∈ db'.active_oracles, row ∈ db.active_oracles ∨
        (env.fetch_result = some row.specification ∧
         env.validate row.specification = true)) := by
  constructor
  · intro spec hf hv
    simp [acknowledge_active_oracle, hf, hv]
  · intro r db' hack row hrow
    cases hf : env.fetch_result with
    | none =>
        simp only [acknowledge_active_oracle, hf, Option.some.injEq,
          Prod.mk.injEq] at hack
        rw [← hack.2] at hrow
        exact Or.inl hrow
    | some spec =>
      by_cases hv : env.validate spec = true
      · by_cases hpool : env.pool_ok = true
        · cases hc : ActiveOracle.create db d.address chain_id spec with
          | none =>
              simp [acknowledge_active_oracle, hf, hv, hpool, hc] at hack
          | some res =>
            cases res with
            | error e =>
                simp only [acknowledge_active_oracle, hf, hv, hpool, hc,
                  eq_self_iff_true, not_true, ite_false, ite_true,
                  Option.some.injEq, Prod.mk.injEq] at hack
                rw [← hack.2] at hrow
                exact Or.inl hrow
            | ok db2 =>
                have hdb' : db' = db2 := by
                  simp only [acknowledge_active_oracle, hf, hv, hpool, hc,
                    eq_self_iff_true, not_true, ite_false, ite_true] at hack
                  by_cases hpin : env.pinning_configured = true <;>
                    by_cases hok : env.pin_ok = true <;>
                      simp only [hpin, hok, Bool.false_eq_true, if_true,
                        if_false, Option.some.injEq, Prod.mk.injEq] at hack <;>
                      exact hack.2.symm
                rw [hdb', create_ok_rows db d.address chain_id spec db2 hc,
                  List.mem_append, List.mem_singleton] at hrow
                cases hrow with
                | inl hmem => exact Or.inl hmem
                | inr heq =>
                    refine Or.inr ?_
                    rw [heq]
                    exact ⟨rfl, hv⟩
        · simp only [acknowledge_active_oracle, hf, hv, hpool,
            eq_self_iff_true, not_true, ite_false, ite_true,
            Bool.false_eq_true, not_false_eq_true,
            Option.some.injEq, Prod.mk.injEq] at hack
          rw [← hack.2] at hrow
          exact Or.inl hrow
      · rw [Bool.not_eq_true] at hv
        simp only [acknowledge_active_oracle, hf, hv, Bool.false_eq_true,
          not_false_eq_true, ite_true, Option.some.injEq,
          Prod.mk.injEq] at hack
        rw [← hack.2] at hrow
        exact Or.inl hrow

/-- Claim C4: the per-candidate acknowledgement task returns an error
exactly when the specification was fetched and validated but persisting
fails — the pool yields no connection or the insert conflicts — or the
insert succeeded and the configured pinning step fails; retry-exhausted
fetch (`fetch_result = none`) and validation failure both make it return
`Ok` with no row created. -/
theorem c4_ack_error_conditions (env : AckEnv) (chain_id : Nat)
    (d : DefiLlamaOracleData) (db : Db) (h : chain_id ≤ i32Max) :
    ∃ r db', acknowledge_active_oracle env chain_id d db = some (r, db') ∧
      ((∃ e, r = Except.error e) ↔
        ∃ spec, env.fetch_result = some spec ∧ env.validate spec = true ∧
          (env.pool_ok = false ∨
           createWouldConflict db d.address (chain_id : Int) = true ∨
           (env.pinning_configured = true ∧ env.pin_ok = false))) ∧
      (env.fetch_result = none → r = Except.ok () ∧ db' = db) ∧
      (∀ spec, env.fetch_result = some spec → env.validate spec = false →
        r = Except.ok () ∧ db' = db) := by
  cases hf : env.fetch_result with
  | none =>
      refine ⟨Except.ok (), db, by simp [acknowledge_active_oracle, hf],
        ?_, fun _ => ⟨rfl, rfl⟩, by simp⟩
      simp
  | some spec =>
    have hcontra : ∀ spec2 : Specification, some spec = some spec2 →
        env.validate spec2 = false → env.validate spec = true → False := by
      intro spec2 hs hv2 hv
      rw [Option.some.injEq] at hs
      rw [← hs, hv] at hv2
      exact absurd hv2 (by simp)
    by_cases hv : env.validate spec = true
    · by_cases hpool : env.pool_ok = true
      · cases hcf : createWouldConflict db d.address (chain_id : Int) with
        | true =>
            refine ⟨Except.error AckError.insertFailed, db,
              by simp [acknowledge_active_oracle, hf, hv, hpool,
                ActiveOracle.create, i32TryFromU64, h, hcf], ?_, by simp,
              fun spec2 hs hv2 => absurd (hcontra spec2 hs hv2 hv) (by simp)⟩
            constructor
            · intro _
              exact ⟨spec, rfl, hv, Or.inr (Or.inl rfl)⟩
            · intro _
              exact ⟨AckError.insertFailed, rfl⟩
        | false =>
            by_cases hpin : env.pinning_configured = true
            · by_cases hok : env.pin_ok = true
              · refine ⟨Except.ok (), ⟨db.active_oracles ++ [⟨d.address, (chain_id : Int), spec⟩], db.snapshots⟩,
                  by simp [acknowledge_active_oracle, hf, hv, hpool,
                    ActiveOracle.create, i32TryFromU64, h, hcf, hpin, hok],
                  ?_, by simp,
                  fun spec2 hs hv2 => absurd (hcontra spec2 hs hv2 hv) (by simp)⟩
                constructor
                · rintro ⟨e, he⟩
                  exact absurd he (by simp)
                · rintro ⟨spec2, hs, -, hbad⟩
                  simp [hpool, hok] at hbad
              · refine ⟨Except.error AckError.pinFailed, ⟨db.active_oracles ++ [⟨d.address, (chain_id : Int), spec⟩], db.snapshots⟩,
                  by simp [acknowledge_active_oracle, hf, hv, hpool,
                    ActiveOracle.create, i32TryFromU64, h, hcf, hpin, hok],
                  ?_, by simp,
                  fun spec2 hs hv2 => absurd (hcontra spec2 hs hv2 hv) (by simp)⟩
                constructor
                · intro _
                  exact ⟨spec, rfl, hv,
                    Or.inr (Or.inr ⟨hpin, by simpa using hok⟩)⟩
                · intro _
                  exact ⟨AckError.pinFailed, rfl⟩
            · refine ⟨Except.ok (), ⟨db.active_oracles ++ [⟨d.address, (chain_id : Int), spec⟩], db.snapshots⟩,
                by simp [acknowledge_active_oracle, hf, hv, hpool,
                  ActiveOracle.create, i32TryFromU64, h, hcf, hpin],
                ?_, by simp,
                fun spec2 hs hv2 => absurd (hcontra spec2 hs hv2 hv) (by simp)⟩
              constructor
              · rintro ⟨e, he⟩
                exact absurd he (by simp)
              · rintro ⟨spec2, hs, -, hbad⟩
                simp [hpool, hpin] at hbad
      · refine ⟨Except.error AckError.poolUnavailable, db,
          by simp [acknowledge_active_oracle, hf, hv, hpool], ?_, by simp,
          fun spec2 hs hv2 => absurd (hcontra spec2 hs hv2 hv) (by simp)⟩
        constructor
        · intro _
          exact ⟨spec, rfl, hv, Or.inl (by simpa using hpool)⟩
        · intro _
          exact ⟨AckError.poolUnavailable, rfl⟩
    · have hv0 : env.validate spec = false := by simpa using hv
      refine ⟨Except.ok (), db,
        by simp [acknowledge_active_oracle, hf, hv0], ?_, by simp,
        fun _ _ _ => ⟨rfl, rfl⟩⟩
      constructor
      · rintro ⟨e, he⟩
        exact absurd he (by simp)
      · rintro ⟨spec2, hs, hval, -⟩
        rw [Option.some.injEq] at hs
        rw [← hs, hv0] at hval
        exact absurd hval (by simp)

/-- Claim C3 (code bug): two candidates that differ only in
`measurement_timestamp` (100 vs 999) are acknowledged to the very same
database state, and the persisted ActiveOracle row carries only address,
chain id and specification — `src/db/models.rs` has no measurement-timestamp
column (its `create` takes four arguments while the caller in
`src/scanner/commons.rs` passes the timestamp as a fifth), so the Answering
Sweep cannot read the measurement timestamp from the stored record. -/
theorem c3_measurement_timestamp_not_persisted :
    acknowledge_active_oracle
        ⟨some "speccontent", fun _ => true, true, false, true⟩ 10
        ⟨1, 100, "cid"⟩ Db.empty
      = acknowledge_active_oracle
        ⟨some "speccontent", fun _ => true, true, false, true⟩ 10
        ⟨1, 999, "cid"⟩ Db.empty ∧
    acknowledge_active_oracle
        ⟨some "speccontent", fun _ => true, true, false, true⟩ 10
        ⟨1, 100, "cid"⟩ Db.empty
      = some (Except.ok (), ⟨[⟨1, 10, "speccontent"⟩], []⟩) :=
  ⟨rfl, rfl⟩

/-- Claim C6 (code bug): `ActiveOracle::delete` filters on the address
alone (`active_oracles.find(&self.address)`), so deleting the row
(chain 1, address 5) from a store that also holds (chain 2, address 5)
removes BOTH rows — the same-address row of the other chain is not left
unchanged. Deleting when no row exists is still a successful no-op. -/
theorem c6_delete_ignores_chain_id :
    ActiveOracle.delete ⟨[⟨5, 1, "s"⟩, ⟨5, 2, "t"⟩], []⟩ ⟨5, 1, "s"⟩
      = Except.ok ⟨[], []⟩ ∧
    ActiveOracle.delete Db.empty ⟨5, 1, "s"⟩ = Except.ok Db.empty :=
  ⟨rfl, rfl⟩

/-- Claim C8 (code bug): in the supervisor loop of `src/main.rs`, a
top-level task that exits by returning an error — and likewise one returning
successfully — is absorbed (`let _ = res.context(..)?` discards the task's
own result), the loop keeps joining the remaining tasks (both tasks of the
list are joined) and `main` returns `Ok`; only a panicked task
(`JoinError`) makes the process terminate with an error. -/
theorem c8_supervisor_absorbs_task_exits :
    superviseJoin [TaskOutcome.retErr, TaskOutcome.retOk] = Except.ok () ∧
    joinedCount [TaskOutcome.retErr, TaskOutcome.retOk] = 2 ∧
    superviseJoin [TaskOutcome.panicked, TaskOutcome.retOk]
      = Except.error "task unexpectedly stopped" ∧
    joinedCount [TaskOutcome.panicked, TaskOutcome.retOk] = 1 :=
  ⟨rfl, rfl, rfl, rfl⟩

/-- Claim C7 (counterexample): the dispatcher records whatever block number a
`PastBatchCompleted` event carries, so the event sequence
`PastBatchCompleted(to 300, 100%)` then `PastBatchCompleted(to 200, 50%)`
drives the stored checkpoint from 300 down to 200 — the checkpoint is NOT
non-decreasing for every sequence of update events. -/
theorem c7_checkpoint_can_decrease :
    ((dispatchStates ((⟨1, 7, true⟩ : ListenerState), (none : Option Int))
        [Update.PastBatchCompleted 0 300 100,
         Update.PastBatchCompleted 0 200 50]).map Prod.snd
      = [some 300, some 200]) ∧
    ¬ ((300 : Int) ≤ 200) := by
  exact ⟨by decide, by decide⟩

/-- Claim C9 (counterexample): processing one oracle whose reads all succeed
(finalized = false, template id 7 = target, specification "cid", timestamp
100) yields the candidate, but NO multicall in the issued read trace contains
the specification read — the four values are not read together in one batched
multicall; the multicall batches only the finalized flag and the template. -/
theorem c9_multicall_lacks_specification :
    (processOracle 7 1 ⟨some (false, 7), some "cid", some 100⟩).1
      = some ⟨1, 100, "cid"⟩ ∧
    ∀ items,
      CallEvent.multicall items
          ∈ (processOracle 7 1 ⟨some (false, 7), some "cid", some 100⟩).2 →
      ¬ CallItem.specification ∈ items := by
  refine ⟨rfl, ?_⟩
  intro items h
  have hitems : items = [CallItem.finalized, CallItem.template] := by
    simpa [processOracle] using h
  subst hitems
  decide

/-- Claim C10: every store operation taking a `chain_id : u64`
(`ActiveOracle::create`, `ActiveOracle::get_all_for_chain_id`,
`Snapshot::update`, `Snapshot::get_for_chain_id`) converts it with
`i32::try_from(..).unwrap()`: the operation avoids the conversion panic
(modelled as `none`) exactly when the chain id is at most `2^31 - 1`, and
panics — rather than returning an error result — whenever it is larger. -/
theorem c10_chain_id_i32_conversion (chain_id : Nat) (db : Db)
    (address : Address) (specification : Specification) (block_number : Int) :
    ((ActiveOracle.create db address chain_id specification).isSome
        ↔ chain_id ≤ i32Max) ∧
    ((ActiveOracle.get_all_for_chain_id db chain_id).isSome
        ↔ chain_id ≤ i32Max) ∧
    ((Snapshot.update db chain_id block_number).isSome ↔ chain_id ≤ i32Max) ∧
    ((Snapshot.get_for_chain_id db chain_id).isSome ↔ chain_id ≤ i32Max) := by
  by_cases h : chain_id ≤ i32Max <;>
    refine ⟨?_, ?_, ?_, ?_⟩ <;>
      simp only [ActiveOracle.create, ActiveOracle.get_all_for_chain_id,
        Snapshot.update, Snapshot.get_for_chain_id, i32TryFromU64, h,
        if_true, if_false, Option.map_some, Option.map_none,
        Option.isSome_some, Option.isSome_none, iff_true, iff_false] <;>
      first
        | (split <;> simp [h])
        | simp [h]

/-- Claim C9 (amended): for each oracle the two values finalized flag and
template id are read together in one batched multicall — every multicall in
the read trace batches exactly those two — while the specification reference
and the measurement timestamp are fetched by separate single calls; and a
per-oracle failure (the oracle yields no candidate) causes only that oracle
to be skipped: the remaining oracles of the same log produce the same
candidates as if the failing one were absent. -/
theorem c9_amended_pair_multicall_and_isolation (oracle_template_id : Nat)
    (address : Address) (reads : OracleReads) :
    CallEvent.multicall [CallItem.finalized, CallItem.template]
        ∈ (processOracle oracle_template_id address reads).2 ∧
    (∀ items, CallEvent.multicall items
        ∈ (processOracle oracle_template_id address reads).2 →
      items = [CallItem.finalized, CallItem.template]) ∧
    (∀ (l1 l2 : List (Address × OracleReads)) (ar : Address × OracleReads),
      (processOracle oracle_template_id ar.1 ar.2).1 = none →
      processOracles oracle_template_id (l1 ++ ar :: l2)
        = processOracles oracle_template_id (l1 ++ l2)) := by
  obtain ⟨rest, hshape, hrest⟩ :=
    processOracle_trace_shape oracle_template_id address reads
  refine ⟨?_, ?_, ?_⟩
  · rw [hshape]
    exact List.mem_cons_self _ _
  · intro items h
    rw [hshape, List.mem_cons] at h
    cases h with
    | inl heq =>
        exact (CallEvent.multicall.injEq _ _).mp heq
    | inr hmem =>
        obtain ⟨item, hitem⟩ := hrest _ hmem
        exact absurd hitem (by simp)
  · intro l1 l2 ar hnone
    simp only [processOracles, List.filterMap_append, List.filterMap_cons,
      hnone]

/-- Claim C7 (amended): along any per-chain sequence of update events whose
checkpoint-bearing block numbers (the `to_block` of each `PastBatchCompleted`
and the block number of each `NewBlock`) are non-decreasing, below `2^63`
(so the `as i64` cast of `update_checkpoint_block_number` preserves them),
and bound the initially stored checkpoint from above, the stored checkpoint
value is non-decreasing after every dispatcher step. -/
theorem c7_amended_checkpoint_monotone (s : ListenerState) (cp : Option Int)
    (us : List Update)
    (hmono : (us.filterMap updateTarget).Pairwise (fun a b => a ≤ b))
    (hbound : ∀ t ∈ us.filterMap updateTarget, t < 2 ^ 63)
    (hinit : ∀ t ∈ us.filterMap updateTarget, cpLe cp (some (u64AsI64 t))) :
    List.Chain' cpLe (cp :: (dispatchStates (s, cp) us).map Prod.snd) := by
  induction us generalizing s cp with
  | nil => simp [dispatchStates]
  | cons u us ih =>
    show List.Chain' cpLe
      (cp :: ((dispatchStep (s, cp) u) ::
        dispatchStates (dispatchStep (s, cp) u) us).map Prod.snd)
    rw [List.map_cons, List.chain'_cons]
    have hstep := dispatchStep_snd_cases s cp u
    constructor
    · cases hstep with
      | inl he =>
          rw [he]
          exact cpLe_refl cp
      | inr he =>
          obtain ⟨t, htu, he⟩ := he
          rw [he]
          refine hinit t ?_
          rw [List.filterMap_cons, htu]
          exact List.mem_cons_self _ _
    · have heta : dispatchStep (s, cp) u
          = ((dispatchStep (s, cp) u).1, (dispatchStep (s, cp) u).2) := rfl
      rw [heta]
      cases htu0 : updateTarget u with
      | none =>
          refine ih (dispatchStep (s, cp) u).1 (dispatchStep (s, cp) u).2
            ?_ ?_ ?_
          · rw [List.filterMap_cons, htu0] at hmono
            exact hmono
          · intro t ht
            refine hbound t ?_
            rw [List.filterMap_cons, htu0]
            exact ht
          · intro t ht
            cases hstep with
            | inl he =>
                rw [he]
                refine hinit t ?_
                rw [List.filterMap_cons, htu0]
                exact ht
            | inr he =>
                obtain ⟨t0, htu, -⟩ := he
                rw [htu0] at htu
                exact absurd htu (by simp)
      | some t =>
          have hmono2 : ((t :: us.filterMap updateTarget).Pairwise
              (fun a b => a ≤ b)) := by
            rw [List.filterMap_cons, htu0] at hmono
            exact hmono
          rw [List.pairwise_cons] at hmono2
          refine ih (dispatchStep (s, cp) u).1 (dispatchStep (s, cp) u).2
            hmono2.2 ?_ ?_
          · intro t2 ht2
            refine hbound t2 ?_
            rw [List.filterMap_cons, htu0]
            exact List.mem_cons_of_mem _ ht2
          · intro t2 ht2
            cases hstep with
            | inl he =>
                rw [he]
                refine hinit t2 ?_
                rw [List.filterMap_cons, htu0]
                exact List.mem_cons_of_mem _ ht2
            | inr he =>
                obtain ⟨t0, htu, he⟩ := he
                rw [htu0, Option.some.injEq] at htu
                rw [he, ← htu]
                intro x hx
                rw [Option.some.injEq] at hx
                refine ⟨u64AsI64 t2, rfl, ?_⟩
                rw [← hx]
                have hb1 : t < 2 ^ 63 := by
                  refine hbound t ?_
                  rw [List.filterMap_cons, htu0]
                  exact List.mem_cons_self _ _
                have hb2 : t2 < 2 ^ 63 := by
                  refine hbound t2 ?_
                  rw [List.filterMap_cons, htu0]
                  exact List.mem_cons_of_mem _ ht2
                rw [u64AsI64_eq_ofNat t hb1, u64AsI64_eq_ofNat t2 hb2]
                exact Int.ofNat_le.mpr (hmono2.1 t2 ht2)

/-- Witness for C1: in live mode (`scanning_past = false`) on `NewBlock 42`,
the checkpoint advancement at index 1 is preceded by the sweep. -/
theorem c1_witness_concrete :
    ∃ j, j < 1 ∧ (Listener.on_update ⟨1, 7, false⟩
        (Update.NewBlock 42)).2.get? j = some Action.answeringSweep :=
  (c1_new_block_sweep_then_checkpoint ⟨1, 7, false⟩ 42).2.2 1 42 rfl

/-- Witness for C2: a candidate whose document fails validation is
acknowledged as `Ok` with the database left empty. -/
theorem c2_witness_concrete :
    acknowledge_active_oracle ⟨some "s", fun _ => false, true, false, true⟩ 1
        ⟨1, 5, "c"⟩ Db.empty = some (Except.ok (), Db.empty) :=
  (c2_row_only_with_validated_spec ⟨some "s", fun _ => false, true, false, true⟩
    1 ⟨1, 5, "c"⟩ Db.empty).1 "s" rfl rfl

/-- Witness for C4: with a fetched, valid document but an unavailable pool,
the acknowledgement task produces a result. -/
theorem c4_witness_concrete :
    ∃ r db', acknowledge_active_oracle
        ⟨some "s", fun _ => true, false, false, true⟩ 1 ⟨1, 5, "c"⟩ Db.empty
      = some (r, db') := by
  obtain ⟨r, db', h, -, -, -⟩ :=
    c4_ack_error_conditions ⟨some "s", fun _ => true, false, false, true⟩ 1
      ⟨1, 5, "c"⟩ Db.empty (by decide)
  exact ⟨r, db', h⟩

/-- Witness for C5: a `PastBatchCompleted` at 50 percent leaves the
historical-replay flag unchanged. -/
theorem c5_witness_concrete :
    (Listener.on_update ⟨1, 7, true⟩
        (Update.PastBatchCompleted 0 200 50)).1.scanning_past
      = (⟨1, 7, true⟩ : ListenerState).scanning_past :=
  (c5_past_batch_checkpoint_and_flag ⟨1, 7, true⟩ 0 200 50).2.2 (by norm_num)

/-- Witness for the amended C7: a monotone event stream (targets 200, 300,
301) yields a non-decreasing checkpoint run from an empty checkpoint. -/
theorem c7_amended_witness_concrete :
    List.Chain' cpLe (none :: (dispatchStates
        ((⟨1, 7, true⟩ : ListenerState), (none : Option Int))
        [Update.PastBatchCompleted 0 200 50,
         Update.PastBatchCompleted 0 300 100,
         Update.NewBlock 301]).map Prod.snd) :=
  c7_amended_checkpoint_monotone ⟨1, 7, true⟩ none _
    (by decide) (by decide) (by intro t ht x hx; exact Option.noConfusion hx)

/-- Witness for the amended C9: an oracle whose multicall fails contributes
no candidate and the sibling-free list is unchanged. -/
theorem c9_amended_witness_concrete :
    processOracles 7
        ([] ++ ((1 : Address), (⟨none, none, none⟩ : OracleReads)) :: [])
      = processOracles 7 ([] ++ []) :=
  (c9_amended_pair_multicall_and_isolation 7 1 ⟨none, none, none⟩).2.2 [] []
    (1, ⟨none, none, none⟩) rfl

/-- Witness for C10: chain id 5 fits in an i32, so `ActiveOracle::create`
does not panic on the conversion. -/
theorem c10_witness_concrete :
    (ActiveOracle.create Db.empty 1 5 "s").isSome = true :=
  (c10_chain_id_i32_conversion 5 Db.empty 1 "s" 0).1.mpr (by decide)

end DefiLlamaAnswerer
